import Mathlib

/-!
Verification of the tender ingestion and normalization pipeline of the
bidbase-tender-listing repository (the `sync-tenders` edge function and the
`upsert_tender` database routine).  The definitions below are a shallow
embedding of the TypeScript source: timestamps are modelled as integer epoch
milliseconds, JavaScript `undefined`/absent fields as `Option`, thrown
exceptions as `Except String`, and the persistence backend as an explicit
state (`DBState`) together with an error oracle (`Backend`).
-/

/-- JavaScript `haystack.startsWith` on character lists. -/
def strStarts : List Char → List Char → Bool
  | [], _ => true
  | _ :: _, [] => false
  | a :: as, b :: bs => a == b && strStarts as bs

/-- Auxiliary scan for substring search. -/
def strIncludesAux (needle : List Char) : List Char → Bool
  | [] => needle.isEmpty
  | c :: cs => strStarts needle (c :: cs) || strIncludesAux needle cs

/-- JavaScript `haystack.includes(needle)` (substring containment). -/
def strIncludes (haystack needle : String) : Bool :=
  strIncludesAux needle.data haystack.data

/-- JavaScript `s || null` applied to an optional string: the empty string is
falsy and collapses to `null`. -/
def strOrNone : Option String → Option String
  | some s => if s = "" then none else some s
  | none => none

/-- Render an optional string the way a JS template literal renders a value
that may be `undefined`. -/
def jsShowOpt : Option String → String
  | some s => s
  | none => "undefined"

/-- ASCII lower-casing, structurally recursive so that concrete instances
reduce inside the kernel (`toLowerCase` on the ASCII data this pipeline
handles). -/
def jsToLower (s : String) : String :=
  ⟨s.data.map Char.toLower⟩

/-- Whitespace trimming at both ends, structurally recursive (`trim`). -/
def jsTrim (s : String) : String :=
  ⟨((s.data.dropWhile Char.isWhitespace).reverse.dropWhile Char.isWhitespace).reverse⟩

-- ---------------------------------------------------------------------------
-- Data model: OCDS release shapes (from the TypeScript interfaces)
-- ---------------------------------------------------------------------------

structure OCDSAddress where
  streetAddress : Option String := none
  locality : Option String := none
  region : Option String := none
  postalCode : Option String := none
  countryName : Option String := none
  deriving DecidableEq, Repr

structure OCDSContactPoint where
  name : Option String := none
  email : Option String := none
  telephone : Option String := none
  deriving DecidableEq, Repr

structure OCDSParty where
  id : String
  name : String
  address : Option OCDSAddress := none
  contactPoint : Option OCDSContactPoint := none
  roles : List String
  deriving DecidableEq, Repr

structure OCDSBuyer where
  id : String
  name : String
  deriving DecidableEq, Repr

structure OCDSClassification where
  scheme : String
  id : String
  description : String
  deriving DecidableEq, Repr

structure OCDSItem where
  id : String
  description : Option String := none
  classification : Option OCDSClassification := none
  deriving DecidableEq, Repr

structure OCDSValue where
  amount : Int
  currency : String
  deriving DecidableEq, Repr

structure OCDSTenderPeriod where
  startDate : Option Int := none
  endDate : Option Int := none
  deriving DecidableEq, Repr

structure OCDSDocument where
  id : String
  documentType : String
  title : String
  description : Option String := none
  url : String
  datePublished : Option Int := none
  dateModified : Option Int := none
  format : String
  language : Option String := none
  deriving DecidableEq, Repr

structure OCDSTender where
  id : String
  title : String
  description : Option String := none
  status : String
  items : Option (List OCDSItem) := none
  value : Option OCDSValue := none
  submissionMethod : Option (List String) := none
  tenderPeriod : Option OCDSTenderPeriod := none
  documents : Option (List OCDSDocument) := none
  deriving DecidableEq, Repr

structure OCDSAward where
  id : String
  status : String
  deriving DecidableEq, Repr

/-- One raw release from the feed.  The external identifier and the named
buyer reference are optional here because the JSON feed can omit them; the
TypeScript interface declares them required but performs no runtime check. -/
structure OCDSRelease where
  ocid : Option String := none
  id : String
  date : Int
  parties : List OCDSParty := []
  buyer : Option OCDSBuyer := none
  tender : OCDSTender
  awards : Option (List OCDSAward) := none
  deriving DecidableEq, Repr

-- ---------------------------------------------------------------------------
-- Fixed lookup tables (declaration order preserved as association lists)
-- ---------------------------------------------------------------------------

def PROVINCE_MAPPING : List (String × String) :=
  [("western cape", "Western Cape"),
   ("eastern cape", "Eastern Cape"),
   ("northern cape", "Northern Cape"),
   ("free state", "Free State"),
   ("kwazulu-natal", "KwaZulu-Natal"),
   ("kwazulu natal", "KwaZulu-Natal"),
   ("gauteng", "Gauteng"),
   ("mpumalanga", "Mpumalanga"),
   ("limpopo", "Limpopo"),
   ("north west", "North West"),
   ("northwest", "North West"),
   ("cape town", "Western Cape"),
   ("durban", "KwaZulu-Natal"),
   ("johannesburg", "Gauteng"),
   ("pretoria", "Gauteng"),
   ("tshwane", "Gauteng"),
   ("port elizabeth", "Eastern Cape"),
   ("gqeberha", "Eastern Cape"),
   ("bloemfontein", "Free State"),
   ("kimberley", "Northern Cape"),
   ("polokwane", "Limpopo"),
   ("nelspruit", "Mpumalanga"),
   ("mbombela", "Mpumalanga"),
   ("mafikeng", "North West"),
   ("pietermaritzburg", "KwaZulu-Natal"),
   ("wc", "Western Cape"),
   ("ec", "Eastern Cape"),
   ("nc", "Northern Cape"),
   ("fs", "Free State"),
   ("kzn", "KwaZulu-Natal"),
   ("gp", "Gauteng"),
   ("mp", "Mpumalanga"),
   ("lp", "Limpopo"),
   ("nw", "North West")]

def INDUSTRY_KEYWORDS : List (String × List String) :=
  [("Construction & Infrastructure",
    ["construction", "building", "infrastructure", "road", "bridge", "housing",
     "civil engineering", "structural", "concrete", "steel", "architecture",
     "renovation", "maintenance", "repair", "plumbing", "electrical", "roofing"]),
   ("Information Technology",
    ["software", "hardware", "computer", "IT", "technology", "system",
     "network", "database", "programming", "development", "website",
     "application", "digital", "cyber", "cloud", "server", "telecommunications"]),
   ("Healthcare & Medical",
    ["medical", "health", "hospital", "clinic", "pharmaceutical", "medicine",
     "equipment", "surgical", "diagnostic", "therapy", "nursing", "dental",
     "laboratory", "radiology", "ambulance", "emergency"]),
   ("Education & Training",
    ["education", "school", "university", "training", "learning", "teaching",
     "curriculum", "textbook", "classroom", "student", "academic", "research",
     "library", "educational", "course", "workshop"]),
   ("Transportation & Logistics",
    ["transport", "vehicle", "fleet", "logistics", "delivery", "shipping",
     "freight", "cargo", "bus", "truck", "aviation", "railway", "maritime",
     "fuel", "maintenance", "parts"]),
   ("Security & Safety",
    ["security", "safety", "guard", "surveillance", "alarm", "protection",
     "fire", "emergency", "rescue", "police", "enforcement", "monitoring",
     "access control", "CCTV", "patrol"]),
   ("Professional Services",
    ["consulting", "advisory", "legal", "accounting", "audit", "financial",
     "management", "strategy", "planning", "analysis", "research",
     "professional", "expertise", "specialist"]),
   ("Utilities & Energy",
    ["electricity", "water", "gas", "energy", "power", "utility", "renewable",
     "solar", "wind", "generator", "transmission", "distribution", "meter",
     "infrastructure", "grid"]),
   ("Food & Catering",
    ["food", "catering", "meal", "kitchen", "restaurant", "nutrition",
     "beverage", "cooking", "dining", "cafeteria", "supply", "grocery"]),
   ("Office Supplies & Equipment",
    ["office", "furniture", "stationery", "equipment", "supplies", "paper",
     "printing", "copier", "desk", "chair", "filing", "storage"]),
   ("Cleaning & Maintenance",
    ["cleaning", "maintenance", "janitorial", "housekeeping", "sanitation",
     "waste", "hygiene", "pest control", "landscaping", "gardening"]),
   ("Other", [])]

/-- Labels of the industry table, in declaration order. -/
def industryLabels : List String := INDUSTRY_KEYWORDS.map (·.1)

-- ---------------------------------------------------------------------------
-- Classification Engine (mapProvince, categorizeIndustry)
-- ---------------------------------------------------------------------------

/-- `release.parties?.find(party => party.roles.includes('buyer'))`. -/
def findBuyer (release : OCDSRelease) : Option OCDSParty :=
  release.parties.find? (fun p => p.roles.contains "buyer")

/-- Exact-key lookup in `PROVINCE_MAPPING`. -/
def provinceLookup (key : String) : Option String :=
  (PROVINCE_MAPPING.find? (fun kv => kv.1 = key)).map (·.2)

/-- The lower-cased search text built from tender title and description. -/
def tenderSearchText (release : OCDSRelease) : String :=
  jsToLower (release.tender.title ++ " " ++ (release.tender.description.getD ""))

/-- First block of `mapProvince`: a truthy buyer region is lower-cased,
trimmed and looked up exactly in the table. -/
def regionHitOf (release : OCDSRelease) : Option String :=
  match ((findBuyer release).bind (·.address)).bind (·.region) with
  | some reg => if reg = "" then none else provinceLookup (jsTrim (jsToLower reg))
  | none => none

/-- Second block of `mapProvince`: the same lookup on a truthy buyer
locality. -/
def localityHitOf (release : OCDSRelease) : Option String :=
  match ((findBuyer release).bind (·.address)).bind (·.locality) with
  | some loc => if loc = "" then none else provinceLookup (jsTrim (jsToLower loc))
  | none => none

/-- Third block of `mapProvince`: scan the lower-cased title+description for
the first table key occurring as a substring. -/
def textHitOf (release : OCDSRelease) : Option String :=
  (PROVINCE_MAPPING.find? (fun kv => strIncludes (tenderSearchText release) kv.1)).map (·.2)

/-- `mapProvince` from the sync function: buyer region lookup, then buyer
locality lookup, then a substring scan of title+description, else National. -/
def mapProvince (release : OCDSRelease) : String :=
  match regionHitOf release with
  | some p => p
  | none =>
    match localityHitOf release with
    | some p => p
    | none =>
      match textHitOf release with
      | some p => p
      | none => "National"

/-- Scan one lower-cased text against the industry table in declaration order,
skipping the sentinel "Other" row, returning the first category one of whose
keywords occurs as a substring. -/
def industryScan (text : String) : Option String :=
  (INDUSTRY_KEYWORDS.find?
    (fun ik => ik.1 ≠ "Other" && ik.2.any (fun kw => strIncludes text kw))).map (·.1)

/-- The body of the per-item loop of `categorizeIndustry`: a truthy
classification description is lower-cased and scanned against the table. -/
def itemScanF (item : OCDSItem) : Option String :=
  match item.classification with
  | some c =>
    if c.description = "" then none else industryScan (jsToLower c.description)
  | none => none

/-- `categorizeIndustry` from the sync function: all line-item classification
descriptions are scanned first (in item order), then the title+description
text, else "Other". -/
def categorizeIndustry (release : OCDSRelease) : String :=
  let searchText := tenderSearchText release
  let fromItems : Option String :=
    match release.tender.items with
    | some items => items.findSome? itemScanF
    | none => none
  match fromItems with
  | some industry => industry
  | none =>
    match industryScan searchText with
    | some industry => industry
    | none => "Other"

-- ---------------------------------------------------------------------------
-- Lifecycle Resolver and Record Normalizer (transformRelease)
-- ---------------------------------------------------------------------------

/-- `release.awards && release.awards.length > 0`. -/
def awardsNonempty (release : OCDSRelease) : Bool :=
  match release.awards with
  | some l => decide (0 < l.length)
  | none => false

/-- The optional closing timestamp `release.tender.tenderPeriod?.endDate`. -/
def endDateOf (release : OCDSRelease) : Option Int :=
  release.tender.tenderPeriod.bind (·.endDate)

/-- The status derivation block of `transformRelease`, with the wall clock
passed explicitly. -/
def resolveStatus (now : Int) (release : OCDSRelease) : String :=
  if release.tender.status = "cancelled" then "cancelled"
  else if release.tender.status = "complete" || awardsNonempty release then "awarded"
  else
    match endDateOf release with
    | some closing => if closing < now then "closed" else "open"
    | none => "open"

/-- 30 days in milliseconds, as in `30 * 24 * 60 * 60 * 1000`. -/
def thirtyDaysMs : Int := 30 * 24 * 60 * 60 * 1000

/-- The error raised by evaluating `release.buyer.name` when `release.buyer`
is absent. -/
def typeErrorBuyer : String := "TypeError: cannot read name of undefined buyer reference"

/-- `release.buyer.name`: throws when the buyer reference is absent. -/
def buyerRefName (release : OCDSRelease) : Except String String :=
  match release.buyer with
  | some b => Except.ok b.name
  | none => Except.error typeErrorBuyer

/-- `buyer?.name || release.buyer.name` (an empty party name is falsy). -/
def buyerNameOf (release : OCDSRelease) : Except String String :=
  match (findBuyer release).map (·.name) with
  | some n => if n = "" then buyerRefName release else Except.ok n
  | none => buyerRefName release

/-- One row of the flattened document list produced by `transformRelease`. -/
structure TenderDocumentRecord where
  title : String
  description : Option String
  url : String
  format : String
  document_type : String
  language : String
  date_published : Option Int
  date_modified : Option Int
  deriving DecidableEq, Repr

/-- The per-document mapping inside `transformRelease`. -/
def mapDocument (doc : OCDSDocument) : TenderDocumentRecord :=
  { title := doc.title
    description := strOrNone doc.description
    url := doc.url
    format := doc.format
    document_type := doc.documentType
    language := match doc.language with
      | some l => if l = "" then "en" else l
      | none => "en"
    date_published := doc.datePublished
    date_modified := doc.dateModified }

/-- The scalar columns of a canonical tender (the `...tender` part of the
destructuring `const { documents, ...tender } = tenderData`). -/
structure TenderFields where
  ocid : Option String
  title : String
  description : Option String
  buyer_name : String
  buyer_contact_email : Option String
  buyer_contact_phone : Option String
  province : String
  industry : String
  value_amount : Option Int
  value_currency : String
  submission_method : String
  language : String
  date_published : Int
  date_closing : Int
  status : String
  full_data : OCDSRelease
  deriving DecidableEq, Repr

/-- The full normalized record returned by `transformRelease`: the scalar
columns plus the flattened document list. -/
structure TenderRecord extends TenderFields where
  documents : List TenderDocumentRecord
  deriving DecidableEq, Repr

/-- `transformRelease`: normalize one raw release into the canonical record
shape.  The only way it can fail is the `release.buyer.name` access when no
party carries a usable buyer name and the buyer reference is absent. -/
def transformRelease (now : Int) (release : OCDSRelease) : Except String TenderRecord :=
  match buyerNameOf release with
  | Except.error e => Except.error e
  | Except.ok buyerName =>
    let buyer := findBuyer release
    Except.ok
      { ocid := release.ocid
        title := release.tender.title
        description := strOrNone release.tender.description
        buyer_name := buyerName
        buyer_contact_email := strOrNone ((buyer.bind (·.contactPoint)).bind (·.email))
        buyer_contact_phone := strOrNone ((buyer.bind (·.contactPoint)).bind (·.telephone))
        province := mapProvince release
        industry := categorizeIndustry release
        value_amount :=
          match release.tender.value with
          | some v => if v.amount = 0 then none else some v.amount
          | none => none
        value_currency :=
          match release.tender.value with
          | some v => if v.currency = "" then "ZAR" else v.currency
          | none => "ZAR"
        submission_method :=
          match release.tender.submissionMethod with
          | some l =>
            let s := String.intercalate ", " l
            if s = "" then "Not specified" else s
          | none => "Not specified"
        language := "en"
        date_published := release.date
        date_closing := (endDateOf release).getD (now + thirtyDaysMs)
        status := resolveStatus now release
        full_data := release
        documents := (release.tender.documents.getD []).map mapDocument }

-- ---------------------------------------------------------------------------
-- Reconciliation Store (upsertTender over an explicit database state)
-- ---------------------------------------------------------------------------

/-- One persisted tender row: the internal id plus the scalar columns. -/
structure TenderRow where
  id : Nat
  fields : TenderFields
  deriving DecidableEq, Repr

/-- One persisted document row, owned by a tender via `tender_id`. -/
structure DocRow where
  tender_id : Nat
  doc : TenderDocumentRecord
  deriving DecidableEq, Repr

/-- The persistence backend state: the `tenders` and `tender_documents`
tables plus the id allocator. -/
structure DBState where
  tenders : List TenderRow
  documents : List DocRow
  nextId : Nat
  deriving DecidableEq, Repr

def emptyDB : DBState := { tenders := [], documents := [], nextId := 0 }

/-- Error oracle for the three backend calls made by `upsertTender`: the
tender-row upsert, the document delete, and the document insert.  `none`
means the call succeeds. -/
structure Backend where
  tenderError : TenderFields → Option String
  deleteError : TenderFields → Option String
  insertError : TenderFields → Option String

/-- The backend with no failures. -/
def okBackend : Backend :=
  { tenderError := fun _ => none, deleteError := fun _ => none, insertError := fun _ => none }

/-- `INSERT ... ON CONFLICT (ocid) DO UPDATE`: replace the row with the same
ocid keeping its id, or append a fresh row; returns the resolved id. -/
def upsertRow (db : DBState) (t : TenderFields) : DBState × Nat :=
  match db.tenders.find? (fun row => row.fields.ocid == t.ocid) with
  | some row =>
    ({ db with
        tenders := db.tenders.map (fun u =>
          if u.fields.ocid == t.ocid then { id := row.id, fields := t } else u) },
     row.id)
  | none =>
    ({ db with
        tenders := db.tenders ++ [{ id := db.nextId, fields := t }],
        nextId := db.nextId + 1 },
     db.nextId)

/-- `DELETE FROM tender_documents WHERE tender_id = tid`. -/
def deleteDocs (db : DBState) (tid : Nat) : DBState :=
  { db with documents := db.documents.filter (fun d => d.tender_id ≠ tid) }

/-- Bulk insert of the new document list for tender `tid`. -/
def insertDocs (db : DBState) (tid : Nat) (docs : List TenderDocumentRecord) : DBState :=
  { db with documents := db.documents ++ docs.map (fun d => { tender_id := tid, doc := d }) }

/-- `upsertTender`: upsert the tender row (throwing the backend error if that
call fails), then delete the old documents and insert the new ones — failures
of those two calls are only logged (`console.error`) and swallowed. -/
def upsertTender (b : Backend) (db : DBState) (tenderData : TenderRecord) :
    Except String DBState :=
  let t := tenderData.toTenderFields
  match b.tenderError t with
  | some e => Except.error e
  | none =>
    let step := upsertRow db t
    let db2 :=
      match b.deleteError t with
      | some _ => step.1
      | none => deleteDocs step.1 step.2
    let db3 :=
      if tenderData.documents.isEmpty then db2
      else
        match b.insertError t with
        | some _ => db2
        | none => insertDocs db2 step.2 tenderData.documents
    Except.ok db3

/-- The success path of `upsertTender` as a pure state transformer. -/
def applyUpsert (db : DBState) (tenderData : TenderRecord) : DBState :=
  let step := upsertRow db tenderData.toTenderFields
  let db2 := deleteDocs step.1 step.2
  if tenderData.documents.isEmpty then db2
  else insertDocs db2 step.2 tenderData.documents

-- ---------------------------------------------------------------------------
-- Batch Sync Orchestrator (runSync)
-- ---------------------------------------------------------------------------

/-- One per-release step: normalize then upsert. -/
def processRelease (b : Backend) (now : Int) (db : DBState) (release : OCDSRelease) :
    Except String DBState :=
  match transformRelease now release with
  | Except.error e => Except.error e
  | Except.ok tenderData => upsertTender b db tenderData

structure SyncData where
  processed_count : Nat
  error_count : Nat
  total_fetched : Nat
  errors : List String
  deriving DecidableEq, Repr

inductive SyncResponse where
  | success (data : SyncData)
  | failure (code : String) (message : String)
  deriving DecidableEq, Repr

/-- HTTP status of the two response shapes of the handler. -/
def SyncResponse.httpStatus : SyncResponse → Nat
  | SyncResponse.success _ => 200
  | SyncResponse.failure _ _ => 500

structure LoopState where
  db : DBState
  processed : Nat
  errorTally : Nat
  errorLog : List String
  deriving DecidableEq, Repr

/-- The body of the per-release loop: a failure is caught, counted and
logged; processing continues. -/
def syncStep (b : Backend) (now : Int) (st : LoopState) (release : OCDSRelease) : LoopState :=
  match processRelease b now st.db release with
  | Except.ok db2 => { st with db := db2, processed := st.processed + 1 }
  | Except.error msg =>
    { st with
        errorTally := st.errorTally + 1,
        errorLog := st.errorLog ++
          ["Failed to process tender " ++ jsShowOpt release.ocid ++ ": " ++ msg] }

/-- The sync handler after request parsing: a fetch failure becomes the
top-level SYNC_ERROR failure response; an obtained page is processed
release by release and summarized. -/
def runSync (b : Backend) (db : DBState) (now : Int)
    (fetched : Except String (List OCDSRelease)) : SyncResponse × DBState :=
  match fetched with
  | Except.error e => (SyncResponse.failure "SYNC_ERROR" e, db)
  | Except.ok releases =>
    let final := releases.foldl (syncStep b now) ⟨db, 0, 0, []⟩
    (SyncResponse.success
      { processed_count := final.processed
        error_count := final.errorTally
        total_fetched := releases.length
        errors := final.errorLog.take 10 },
     final.db)

-- ---------------------------------------------------------------------------
-- Reference algorithms written from the specification text
-- ---------------------------------------------------------------------------

/-- The region/locality lookup as the specification words it: lower-case and
trim the string, then look it up exactly in the fixed table. -/
def specBuyerLookup (s : String) : Option String :=
  provinceLookup (jsTrim (jsToLower s))

/-- `deriveProvince` as the specification words it: buyer region lookup,
else buyer locality lookup, else substring scan of title+description for any
table key, else "National"; first match wins. -/
def specMapProvince (release : OCDSRelease) : String :=
  let buyer := release.parties.find? (fun p => p.roles.contains "buyer")
  let stageA : Option String :=
    match (buyer.bind (·.address)).bind (·.region) with
    | some reg => if reg ≠ "" then specBuyerLookup reg else none
    | none => none
  let stageB : Option String :=
    match (buyer.bind (·.address)).bind (·.locality) with
    | some loc => if loc ≠ "" then specBuyerLookup loc else none
    | none => none
  let stageC : Option String :=
    (PROVINCE_MAPPING.find? (fun kv => strIncludes (tenderSearchText release) kv.1)).map (·.2)
  ((stageA.orElse (fun _ => stageB)).orElse (fun _ => stageC)).getD "National"

/-- `categorizeIndustry` as the specification words it: lower-case the
concatenation of tender title, description and (if present) the first line
item's classification description, return the first table category one of
whose keywords occurs as a substring, else "Other". -/
def specCategorizeIndustry (release : OCDSRelease) : String :=
  let firstItemText : String :=
    match (release.tender.items.getD []).head? with
    | some item =>
      match item.classification with
      | some c => c.description
      | none => ""
    | none => ""
  let text :=
    jsToLower (release.tender.title ++ " " ++ release.tender.description.getD "" ++ " "
      ++ firstItemText)
  ((INDUSTRY_KEYWORDS.find? (fun ik => ik.2.any (fun kw => strIncludes text kw))).map
    (·.1)).getD "Other"

/-- `resolveStatus` as the specification words it: cancelled, else complete
or any award gives awarded, else a closing timestamp strictly before `now`
gives closed, else open. -/
def specResolveStatus (now : Int) (release : OCDSRelease) : String :=
  if release.tender.status = "cancelled" then "cancelled"
  else if release.tender.status = "complete" ∨ 0 < (release.awards.getD []).length then
    "awarded"
  else
    match endDateOf release with
    | some closing => if closing < now then "closed" else "open"
    | none => "open"

-- ---------------------------------------------------------------------------
-- Concrete sample inputs
-- ---------------------------------------------------------------------------

/-- A minimal well-behaved release: no closing date, no awards, no parties,
a buyer reference, a neutral title. -/
def sampleRelease : OCDSRelease :=
  { ocid := some "ocds-1"
    id := "r1"
    date := 0
    parties := []
    buyer := some { id := "b1", name := "Dept of Widgets" }
    tender := { id := "t1", title := "Widgets", status := "active" } }

/-- A release whose title matches the construction category while its first
line item's classification matches the information-technology category. -/
def crossedRelease : OCDSRelease :=
  { ocid := some "ocds-2"
    id := "r2"
    date := 0
    parties := []
    buyer := some { id := "b1", name := "Dept of Widgets" }
    tender :=
      { id := "t2", title := "construction", status := "active"
        items := some [{ id := "i1",
                         classification := some { scheme := "s", id := "c1",
                                                  description := "software" } }] } }

/-- A release with no external identifier but every other field usable. -/
def noOcidRelease : OCDSRelease :=
  { ocid := none
    id := "r3"
    date := 0
    parties := []
    buyer := some { id := "b1", name := "Dept of Widgets" }
    tender := { id := "t3", title := "Widgets", status := "active" } }

/-- A release carrying a zero monetary value. -/
def zeroValueRelease : OCDSRelease :=
  { ocid := some "ocds-4"
    id := "r4"
    date := 0
    parties := []
    buyer := some { id := "b1", name := "Dept of Widgets" }
    tender := { id := "t4", title := "Widgets", status := "active"
                value := some { amount := 0, currency := "USD" } } }

/-- A release with one attached document. -/
def docRelease : OCDSRelease :=
  { ocid := some "ocds-5"
    id := "r5"
    date := 0
    parties := []
    buyer := some { id := "b1", name := "Dept of Widgets" }
    tender := { id := "t5", title := "Widgets", status := "active"
                documents := some [{ id := "d1", documentType := "tenderNotice",
                                     title := "Notice", url := "http://x", format := "pdf" }] } }

/-- A release that fails normalization: no buyer party and no buyer
reference. -/
def failingRelease : OCDSRelease :=
  { ocid := some "ocds-6"
    id := "r6"
    date := 0
    parties := []
    buyer := none
    tender := { id := "t6", title := "Widgets", status := "active" } }

/-- A backend whose document insert always fails while the tender upsert and
the document delete succeed. -/
def insertFailBackend : Backend :=
  { tenderError := fun _ => none
    deleteError := fun _ => none
    insertError := fun _ => some "insert failed: connection reset" }

-- ---------------------------------------------------------------------------
-- Helper lemmas
-- ---------------------------------------------------------------------------

/-- The only error `buyerNameOf` can produce is the buyer-reference type
error. -/
theorem buyerNameOf_error_eq (release : OCDSRelease) (e : String)
    (h : buyerNameOf release = Except.error e) : e = typeErrorBuyer := by
  unfold buyerNameOf buyerRefName at h
  repeat' split at h
  all_goals first
    | (cases h; rfl)
    | cases h

/-- `transformRelease` succeeds exactly when `buyerNameOf` does. -/
theorem transform_isOk (now : Int) (release : OCDSRelease) :
    (transformRelease now release).isOk = (buyerNameOf release).isOk := by
  unfold transformRelease
  rcases hb : buyerNameOf release with e | n <;> simp [Except.isOk, Except.toBool]

-- ---------------------------------------------------------------------------
-- C1
-- ---------------------------------------------------------------------------

/-- C1 counterexample: for `sampleRelease` (publication timestamp 0, no
tender-period end date) normalized at wall-clock time 1000, the canonical
closing timestamp is 1000 + 30 days, not the publication timestamp (0) + 30
days — the claimed default is false. -/
theorem closingDefault_uses_wall_clock_cex :
    (transformRelease 1000 sampleRelease).map (·.date_closing)
        = Except.ok (1000 + thirtyDaysMs)
    ∧ (transformRelease 1000 sampleRelease).toOption.map (·.date_closing)
        ≠ some (sampleRelease.date + thirtyDaysMs) := by
  refine ⟨rfl, ?_⟩
  decide

/-- C1 (amended): for every raw release whose tender omits a closing
timestamp, normalization produces a record whose closing timestamp equals the
wall-clock time at normalization (`now`) plus 30 days — not the publication
timestamp plus 30 days. -/
theorem closingDefault_is_now_plus_thirty_days
    (now : Int) (release : OCDSRelease) (rec : TenderRecord)
    (hok : transformRelease now release = Except.ok rec)
    (hend : endDateOf release = none) :
    rec.date_closing = now + thirtyDaysMs := by
  unfold transformRelease at hok
  rcases hb : buyerNameOf release with e | n <;> rw [hb] at hok
  · cases hok
  · cases hok
    show (endDateOf release).getD (now + thirtyDaysMs) = now + thirtyDaysMs
    rw [hend]
    rfl

/-- Witness for C1's amended theorem at a concrete input. -/
theorem closingDefault_is_now_plus_thirty_days_witness :
    (transformRelease 1000 sampleRelease).map (·.date_closing)
      = Except.ok (1000 + thirtyDaysMs) := by
  rcases hok : transformRelease 1000 sampleRelease with e | rec
  · have hne : (transformRelease 1000 sampleRelease).isOk = true := by decide
    rw [hok] at hne
    cases hne
  · have h := closingDefault_is_now_plus_thirty_days 1000 sampleRelease rec hok rfl
    simp [Except.map, h]

-- ---------------------------------------------------------------------------
-- C3
-- ---------------------------------------------------------------------------

/-- C3 counterexample: `noOcidRelease` has no external identifier at all,
yet `transformRelease` succeeds (and passes the absent identifier through),
so normalization does not fail when a required field is entirely absent and
never signals a `NormalizationError`. -/
theorem transform_accepts_missing_ocid_cex :
    noOcidRelease.ocid = none
    ∧ (transformRelease 0 noOcidRelease).isOk = true
    ∧ (transformRelease 0 noOcidRelease).map (·.ocid) = Except.ok none := by
  refine ⟨rfl, by decide, rfl⟩

/-- C3 (amended): `transformRelease` performs no required-field validation
and signals no `NormalizationError`: an absent external identifier (or any
other absent field of the claim) flows through into the record, and the only
failure is a raw type error raised by the `release.buyer.name` access, which
happens exactly when `buyerNameOf` fails (no usable buyer-party name and no
buyer reference). -/
theorem transform_failure_characterization (now : Int) (release : OCDSRelease) :
    ((transformRelease now release).isOk = false ↔
        buyerNameOf release = Except.error typeErrorBuyer)
    ∧ (∀ rec, transformRelease now release = Except.ok rec → rec.ocid = release.ocid) := by
  constructor
  · rw [transform_isOk]
    constructor
    · intro h
      rcases hb : buyerNameOf release with e | n
      · rw [buyerNameOf_error_eq release e hb]
      · rw [hb] at h
        exact Bool.noConfusion h
    · intro h
      rw [h]
      rfl
  · intro rec hok
    unfold transformRelease at hok
    rcases hb : buyerNameOf release with e | n <;> rw [hb] at hok
    · cases hok
    · cases hok
      rfl

/-- Witness for C3's amended theorem at concrete inputs. -/
theorem transform_failure_characterization_witness :
    (transformRelease 0 failingRelease).isOk = false
    ∧ (transformRelease 0 noOcidRelease).map (·.ocid) = Except.ok none := by
  constructor
  · exact (transform_failure_characterization 0 failingRelease).1.mpr rfl
  · rcases hok : transformRelease 0 noOcidRelease with e | rec
    · have hne : (transformRelease 0 noOcidRelease).isOk = true := by decide
      rw [hok] at hne
      cases hne
    · have h := (transform_failure_characterization 0 noOcidRelease).2 rec hok
      simp [Except.map, h, noOcidRelease]

-- ---------------------------------------------------------------------------
-- C10
-- ---------------------------------------------------------------------------

/-- C10: a tender monetary value with amount exactly 0 is stored as a null
`value_amount` (the falsy default treats 0 as missing), making it
indistinguishable from an entirely absent value block, while an absent value
block also defaults the currency to "ZAR". -/
theorem transform_zero_value_null (now : Int) (release : OCDSRelease) (rec : TenderRecord)
    (hok : transformRelease now release = Except.ok rec) :
    (∀ c, release.tender.value = some { amount := 0, currency := c } →
        rec.value_amount = none)
    ∧ (release.tender.value = none →
        rec.value_amount = none ∧ rec.value_currency = "ZAR") := by
  unfold transformRelease at hok
  rcases hb : buyerNameOf release with e | n <;> rw [hb] at hok
  · cases hok
  · cases hok
    constructor
    · intro c hv
      show (match release.tender.value with
            | some v => if v.amount = 0 then none else some v.amount
            | none => none) = none
      rw [hv]
      simp
    · intro hv
      constructor
      · show (match release.tender.value with
              | some v => if v.amount = 0 then none else some v.amount
              | none => none) = none
        rw [hv]
      · show (match release.tender.value with
              | some v => if v.currency = "" then "ZAR" else v.currency
              | none => "ZAR") = "ZAR"
        rw [hv]

/-- Witness for C10 at a concrete zero-valued release and a concrete
value-less release. -/
theorem transform_zero_value_null_witness :
    (transformRelease 0 zeroValueRelease).map (·.value_amount) = Except.ok none
    ∧ (transformRelease 0 sampleRelease).map (fun r => (r.value_amount, r.value_currency))
        = Except.ok (none, "ZAR") := by
  constructor
  · rcases hok : transformRelease 0 zeroValueRelease with e | rec
    · have hne : (transformRelease 0 zeroValueRelease).isOk = true := by decide
      rw [hok] at hne
      cases hne
    · have h := (transform_zero_value_null 0 zeroValueRelease rec hok).1 "USD" rfl
      simp [Except.map, h]
  · rcases hok : transformRelease 0 sampleRelease with e | rec
    · have hne : (transformRelease 0 sampleRelease).isOk = true := by decide
      rw [hok] at hne
      cases hne
    · have h := (transform_zero_value_null 0 sampleRelease rec hok).2 rfl
      simp [Except.map, h.1, h.2]

-- ---------------------------------------------------------------------------
-- C4
-- ---------------------------------------------------------------------------

/-- A value produced by `industryScan` is a label of the industry table. -/
theorem industryScan_mem (t i : String) (h : industryScan t = some i) :
    i ∈ industryLabels := by
  unfold industryScan at h
  rcases hf : INDUSTRY_KEYWORDS.find?
      (fun ik => decide (ik.1 ≠ "Other") && ik.2.any (fun kw => strIncludes t kw))
    with _ | kv <;> rw [hf] at h
  · cases h
  · cases h
    exact List.mem_map_of_mem (·.1) (List.mem_of_find?_eq_some hf)

/-- A value produced by the per-item scan is a label of the industry table. -/
theorem itemScanF_mem (item : OCDSItem) (i : String) (h : itemScanF item = some i) :
    i ∈ industryLabels := by
  unfold itemScanF at h
  split at h
  · split at h
    · exact Option.noConfusion h
    · exact industryScan_mem _ _ h
  · exact Option.noConfusion h

/-- Two-stage selection: first-priority result, else second, else "Other". -/
def pickTwo (X Y : Option String) : String :=
  match X with
  | some i => i
  | none =>
    match Y with
    | some i => i
    | none => "Other"

/-- The same selection phrased through `Option.orElse`. -/
def pickTwoOr (X Y : Option String) : String :=
  match X.orElse (fun _ => Y) with
  | some i => i
  | none => "Other"

theorem pickTwo_eq_pickTwoOr (X Y : Option String) : pickTwo X Y = pickTwoOr X Y := by
  cases X <;> cases Y <;> rfl

theorem pickTwo_mem (X Y : Option String)
    (hX : ∀ i, X = some i → i ∈ industryLabels)
    (hY : ∀ i, Y = some i → i ∈ industryLabels) :
    pickTwo X Y ∈ industryLabels := by
  rcases hx : X with _ | i
  · rcases hy : Y with _ | i
    · show "Other" ∈ industryLabels
      decide
    · exact hY i hy
  · exact hX i hx

/-- The item-classification scan over the whole item list. -/
def itemsScan (release : OCDSRelease) : Option String :=
  (release.tender.items.getD []).findSome? itemScanF

theorem itemsScan_mem (release : OCDSRelease) :
    ∀ i, itemsScan release = some i → i ∈ industryLabels := by
  intro i h
  unfold itemsScan at h
  obtain ⟨item, _, hitem⟩ := List.exists_of_findSome?_eq_some h
  exact itemScanF_mem item i hitem

/-- `categorizeIndustry` is the two-stage selection between the item scan
and the text scan. -/
theorem categorizeIndustry_eq_pickTwo (release : OCDSRelease) :
    categorizeIndustry release
      = pickTwo (itemsScan release) (industryScan (tenderSearchText release)) := by
  unfold categorizeIndustry pickTwo itemsScan
  rcases hi : release.tender.items with _ | items <;> rfl

/-- The algorithm the code actually implements, stated the way the amended
claim words it: every line item's classification description is scanned
first, in item order, against the category table; only if none matches is
the lower-cased title+description text scanned; otherwise "Other". -/
def amendedCategorizeIndustry (release : OCDSRelease) : String :=
  pickTwoOr (itemsScan release) (industryScan (tenderSearchText release))

/-- C4 counterexample: for `crossedRelease` (tender title "construction",
first line-item classification "software") the code returns "Information
Technology" because item classifications are scanned before the
title+description text, while the claimed reference algorithm (concatenate
title, description and first classification, then first table match) returns
"Construction & Infrastructure" — the claim is false. -/
theorem categorizeIndustry_item_priority_cex :
    categorizeIndustry crossedRelease = "Information Technology"
    ∧ specCategorizeIndustry crossedRelease = "Construction & Infrastructure"
    ∧ categorizeIndustry crossedRelease ≠ specCategorizeIndustry crossedRelease := by
  refine ⟨by decide, by decide, by decide⟩

/-- C4 (amended): `categorizeIndustry` equals the item-classifications-first
reference algorithm, and it is deterministic and total — it always returns
one of the fixed category labels or "Other" (a label of the table). -/
theorem categorizeIndustry_scans_items_first (release : OCDSRelease) :
    categorizeIndustry release = amendedCategorizeIndustry release
    ∧ categorizeIndustry release ∈ industryLabels := by
  constructor
  · rw [categorizeIndustry_eq_pickTwo, pickTwo_eq_pickTwoOr]
    rfl
  · rw [categorizeIndustry_eq_pickTwo]
    exact pickTwo_mem _ _ (itemsScan_mem release)
      (fun i h => industryScan_mem _ i h)

-- ---------------------------------------------------------------------------
-- C5
-- ---------------------------------------------------------------------------

/-- Reversing the polarity of a conditional. -/
theorem ifNotComm {c : Prop} [Decidable c] (a b : Option String) :
    (if ¬ c then a else b) = if c then b else a := by
  by_cases h : c <;> simp [h]

/-- `mapProvince` is the priority chain of its three blocks with fallback
"National". -/
theorem mapProvince_eq_chain (release : OCDSRelease) :
    mapProvince release
      = (((regionHitOf release).orElse (fun _ => localityHitOf release)).orElse
          (fun _ => textHitOf release)).getD "National" := by
  unfold mapProvince
  rcases hA : regionHitOf release with _ | p
  · rcases hB : localityHitOf release with _ | p
    · rcases hC : textHitOf release with _ | p <;> rfl
    · rfl
  · rfl

/-- The specification's reference algorithm is the same priority chain. -/
theorem specMapProvince_eq_chain (release : OCDSRelease) :
    specMapProvince release
      = (((regionHitOf release).orElse (fun _ => localityHitOf release)).orElse
          (fun _ => textHitOf release)).getD "National" := by
  unfold specMapProvince regionHitOf localityHitOf textHitOf specBuyerLookup findBuyer
  simp only [ifNotComm]

/-- C5: `mapProvince` follows the documented priority order: (a) exact
lookup of the lower-cased, trimmed buyer region; (b) else the same lookup on
the buyer locality; (c) else a substring scan of the lower-cased
title+description for any table key; (d) else "National".  In particular a
buyer region that lower-cases and trims to "western cape" forces "Western
Cape" regardless of any text match, and a release with no table hit in
region, locality, or text yields "National". -/
theorem mapProvince_follows_spec_priority :
    (∀ release, mapProvince release = specMapProvince release)
    ∧ (∀ release reg,
        ((findBuyer release).bind (·.address)).bind (·.region) = some reg →
        jsTrim (jsToLower reg) = "western cape" →
        mapProvince release = "Western Cape")
    ∧ (∀ release,
        (∀ reg, ((findBuyer release).bind (·.address)).bind (·.region) = some reg →
          provinceLookup (jsTrim (jsToLower reg)) = none) →
        (∀ loc, ((findBuyer release).bind (·.address)).bind (·.locality) = some loc →
          provinceLookup (jsTrim (jsToLower loc)) = none) →
        (∀ kv, kv ∈ PROVINCE_MAPPING →
          strIncludes (tenderSearchText release) kv.1 = false) →
        mapProvince release = "National") := by
  refine ⟨?_, ?_, ?_⟩
  · intro release
    rw [mapProvince_eq_chain, specMapProvince_eq_chain]
  · intro release reg hreg hwc
    have hne : reg ≠ "" := by
      intro h0
      rw [h0] at hwc
      exact absurd hwc (by decide)
    have hA : regionHitOf release = some "Western Cape" := by
      unfold regionHitOf
      simp only [hreg]
      rw [if_neg hne, hwc]
      decide
    rw [mapProvince_eq_chain, hA]
    rfl
  · intro release h1 h2 h3
    have hA : regionHitOf release = none := by
      unfold regionHitOf
      rcases hreg : ((findBuyer release).bind (·.address)).bind (·.region) with _ | reg
      · rfl
      · by_cases hr : reg = ""
        · simp [hr]
        · simp [hr, h1 reg hreg]
    have hB : localityHitOf release = none := by
      unfold localityHitOf
      rcases hloc : ((findBuyer release).bind (·.address)).bind (·.locality) with _ | loc
      · rfl
      · by_cases hl : loc = ""
        · simp [hl]
        · simp [hl, h2 loc hloc]
    have hC : textHitOf release = none := by
      unfold textHitOf
      rw [List.find?_eq_none.mpr (fun kv hkv => by simp [h3 kv hkv])]
      rfl
    rw [mapProvince_eq_chain, hA, hB, hC]
    rfl

/-- A release whose buyer region is a sloppily-written Western Cape while
the tender text names a different province's city. -/
def wcRelease : OCDSRelease :=
  { ocid := some "ocds-7"
    id := "r7"
    date := 0
    parties := [{ id := "p1", name := "City Office",
                  address := some { region := some "  WESTERN Cape ",
                                    locality := some "Durban" },
                  roles := ["buyer"] }]
    buyer := some { id := "b1", name := "City Office" }
    tender := { id := "t7", title := "Johannesburg services", status := "active" } }

/-- Witness for C5 at concrete inputs: the sloppy "western cape" region wins
over the conflicting locality and text, and `sampleRelease` (no keyword
anywhere) falls back to "National". -/
theorem mapProvince_follows_spec_priority_witness :
    mapProvince wcRelease = "Western Cape"
    ∧ mapProvince sampleRelease = "National"
    ∧ mapProvince sampleRelease = specMapProvince sampleRelease := by
  refine ⟨?_, ?_, ?_⟩
  · exact mapProvince_follows_spec_priority.2.1 wcRelease "  WESTERN Cape " rfl (by decide)
  · exact mapProvince_follows_spec_priority.2.2 sampleRelease
      (fun reg hreg => by cases hreg)
      (fun loc hloc => by cases hloc)
      (fun kv hkv => by
        fin_cases hkv <;> decide)
  · exact mapProvince_follows_spec_priority.1 sampleRelease

-- ---------------------------------------------------------------------------
-- C6
-- ---------------------------------------------------------------------------

/-- C6: the status derivation is total (always one of the four labels) and
follows exactly the documented decision order: "cancelled" outranks
everything; "complete" or at least one award gives "awarded" regardless of
the closing date; else a closing timestamp strictly before `now` gives
"closed"; else "open" (a missing closing date means still open). -/
theorem resolveStatus_decision_order :
    (∀ now release, resolveStatus now release = specResolveStatus now release)
    ∧ (∀ now release,
        resolveStatus now release ∈ (["cancelled", "awarded", "closed", "open"] : List String))
    ∧ (∀ now release, release.tender.status ≠ "cancelled" → awardsNonempty release = true →
        resolveStatus now release = "awarded")
    ∧ (∀ now release, release.tender.status = "cancelled" →
        resolveStatus now release = "cancelled") := by
  refine ⟨?_, ?_, ?_, ?_⟩
  · intro now release
    unfold resolveStatus specResolveStatus
    by_cases h1 : release.tender.status = "cancelled"
    · simp [h1]
    · by_cases h2 : release.tender.status = "complete"
      · simp [h1, h2]
      · rcases ha : release.awards with _ | l
        · simp [awardsNonempty, h1, h2, ha]
        · simp [awardsNonempty, h1, h2, ha]
  · intro now release
    unfold resolveStatus
    by_cases h1 : release.tender.status = "cancelled"
    · simp [h1]
    · by_cases h2 : (decide (release.tender.status = "complete")
          || awardsNonempty release) = true
      · simp [h1, h2]
      · simp only [if_neg h1, h2, if_false, Bool.false_eq_true]
        rcases hd : endDateOf release with _ | closing
        · simp
        · by_cases hc : closing < now <;> simp [hc]
  · intro now release h1 h2
    unfold resolveStatus
    simp [h1, h2]
  · intro now release h1
    unfold resolveStatus
    simp [h1]

/-- A release with an award and a closing date far in the future. -/
def awardedFutureRelease : OCDSRelease :=
  { ocid := some "ocds-8"
    id := "r8"
    date := 0
    parties := []
    buyer := some { id := "b1", name := "Dept of Widgets" }
    tender := { id := "t8", title := "Widgets", status := "active"
                tenderPeriod := some { endDate := some 1000000 } }
    awards := some [{ id := "a1", status := "active" }] }

/-- A cancelled release that also carries an award. -/
def cancelledAwardedRelease : OCDSRelease :=
  { ocid := some "ocds-9"
    id := "r9"
    date := 0
    parties := []
    buyer := some { id := "b1", name := "Dept of Widgets" }
    tender := { id := "t9", title := "Widgets", status := "cancelled" }
    awards := some [{ id := "a1", status := "active" }] }

/-- Witness for C6 at concrete inputs: an award outranks a future closing
date, and cancellation outranks the award. -/
theorem resolveStatus_decision_order_witness :
    resolveStatus 0 awardedFutureRelease = "awarded"
    ∧ resolveStatus 0 cancelledAwardedRelease = "cancelled"
    ∧ resolveStatus 0 sampleRelease = specResolveStatus 0 sampleRelease := by
  refine ⟨?_, ?_, ?_⟩
  · exact resolveStatus_decision_order.2.2.1 0 awardedFutureRelease (by decide) (by decide)
  · exact resolveStatus_decision_order.2.2.2 0 cancelledAwardedRelease (by decide)
  · exact resolveStatus_decision_order.1 0 sampleRelease

-- ---------------------------------------------------------------------------
-- C2
-- ---------------------------------------------------------------------------

/-- C2 counterexample: with a backend whose document insert fails
(`insertFailBackend`), upserting the normalized `docRelease` (which carries
one document) succeeds instead of failing: the resulting state holds the
tender row and zero documents, so the record was partially applied and the
failure was silently swallowed — the claim is false. -/
theorem upsertTender_swallows_document_failure_cex :
    (transformRelease 0 docRelease).toOption.map (fun rec =>
        ((upsertTender insertFailBackend emptyDB rec).toOption.map (fun db =>
          (db.tenders.map (fun row => row.fields.ocid), db.documents.length)),
         rec.documents.length))
      = some (some ([some "ocds-5"], 0), 1) := by
  decide

/-- C2 (amended): `upsertTender` propagates the backend's native error (not
a wrapper) exactly when the tender-row upsert itself fails; failures while
deleting or inserting the document set are logged and swallowed, so the call
still succeeds and the caller cannot detect a partially applied record. -/
theorem upsertTender_fails_iff_row_upsert_fails
    (b : Backend) (db : DBState) (rec : TenderRecord) :
    (∀ e, b.tenderError rec.toTenderFields = some e →
        upsertTender b db rec = Except.error e)
    ∧ (b.tenderError rec.toTenderFields = none →
        ∃ db2, upsertTender b db rec = Except.ok db2) := by
  constructor
  · intro e h
    simp only [upsertTender]
    rw [h]
  · intro h
    simp only [upsertTender]
    rw [h]
    exact ⟨_, rfl⟩

/-- A backend whose tender-row upsert always reports a native error. -/
def rowFailBackend : Backend :=
  { tenderError := fun _ => some "duplicate key value violates unique constraint"
    deleteError := fun _ => none
    insertError := fun _ => none }

/-- A concrete normalized record. -/
def plainRecord : TenderRecord :=
  { ocid := some "ocds-1", title := "Widgets", description := none
    buyer_name := "Dept of Widgets", buyer_contact_email := none
    buyer_contact_phone := none, province := "National", industry := "Other"
    value_amount := none, value_currency := "ZAR"
    submission_method := "Not specified", language := "en", date_published := 0
    date_closing := 2592000000, status := "open", full_data := sampleRelease
    documents := [] }

/-- Witness for C2's amended theorem at concrete inputs. -/
theorem upsertTender_fails_iff_row_upsert_fails_witness :
    upsertTender rowFailBackend emptyDB plainRecord
        = Except.error "duplicate key value violates unique constraint"
    ∧ (upsertTender okBackend emptyDB plainRecord).isOk = true := by
  constructor
  · exact (upsertTender_fails_iff_row_upsert_fails rowFailBackend emptyDB plainRecord).1 _ rfl
  · obtain ⟨db2, h⟩ :=
      (upsertTender_fails_iff_row_upsert_fails okBackend emptyDB plainRecord).2 rfl
    rw [h]
    rfl

-- ---------------------------------------------------------------------------
-- C8
-- ---------------------------------------------------------------------------

/-- C8: the sync run returns the 500 `SYNC_ERROR` failure response exactly
when the fetch stage failed; when a page was fetched, per-record failures
are absorbed into the summary and the response is always the 200 success
shape. -/
theorem runSync_fails_iff_fetch_fails (b : Backend) (db : DBState) (now : Int)
    (fetched : Except String (List OCDSRelease)) :
    ((∃ e, fetched = Except.error e) ↔
        ∃ c m, (runSync b db now fetched).1 = SyncResponse.failure c m)
    ∧ (∀ e, fetched = Except.error e →
        (runSync b db now fetched).1 = SyncResponse.failure "SYNC_ERROR" e
          ∧ ((runSync b db now fetched).1).httpStatus = 500)
    ∧ (∀ releases, fetched = Except.ok releases →
        ∃ data, (runSync b db now fetched).1 = SyncResponse.success data
          ∧ ((runSync b db now fetched).1).httpStatus = 200) := by
  rcases fetched with e | releases
  · refine ⟨⟨fun _ => ⟨"SYNC_ERROR", e, rfl⟩, fun _ => ⟨e, rfl⟩⟩, ?_, ?_⟩
    · intro e2 he
      cases he
      exact ⟨rfl, rfl⟩
    · intro releases h
      exact Except.noConfusion h
  · refine ⟨⟨?_, ?_⟩, ?_, ?_⟩
    · rintro ⟨e, he⟩
      exact Except.noConfusion he
    · rintro ⟨c, m, h⟩
      exact SyncResponse.noConfusion h
    · intro e he
      exact Except.noConfusion he
    · intro rels h
      cases h
      exact ⟨_, rfl, rfl⟩

/-- Witness for C8 at concrete inputs: a failed fetch produces the
`SYNC_ERROR` failure, and a fetched page containing a failing record still
produces the 200 success shape. -/
theorem runSync_fails_iff_fetch_fails_witness :
    (runSync okBackend emptyDB 0 (Except.error "fetch down")).1
        = SyncResponse.failure "SYNC_ERROR" "fetch down"
    ∧ ((runSync okBackend emptyDB 0 (Except.ok [failingRelease])).1).httpStatus = 200 := by
  constructor
  · exact ((runSync_fails_iff_fetch_fails okBackend emptyDB 0
      (Except.error "fetch down")).2.1 "fetch down" rfl).1
  · obtain ⟨d, _, h2⟩ := (runSync_fails_iff_fetch_fails okBackend emptyDB 0
      (Except.ok [failingRelease])).2.2 [failingRelease] rfl
    exact h2

-- ---------------------------------------------------------------------------
-- C9
-- ---------------------------------------------------------------------------

/-- Whether one release survives its normalize-then-upsert step; by
construction this does not depend on the database state. -/
def releaseOk (b : Backend) (now : Int) (release : OCDSRelease) : Bool :=
  match transformRelease now release with
  | Except.error _ => false
  | Except.ok rec => (b.tenderError rec.toTenderFields).isNone

/-- `processRelease` succeeds on a release iff `releaseOk` holds,
independently of the database state. -/
theorem processRelease_isOk (b : Backend) (now : Int) (db : DBState)
    (release : OCDSRelease) :
    (processRelease b now db release).isOk = releaseOk b now release := by
  unfold processRelease releaseOk
  rcases ht : transformRelease now release with e | rec
  · rfl
  · simp only [upsertTender]
    rcases hb : b.tenderError rec.toTenderFields with _ | e <;> rfl

/-- Totality of `countP` over a predicate and its negation. -/
theorem countP_split (p : α → Bool) (l : List α) :
    l.countP p + l.countP (fun a => !(p a)) = l.length := by
  induction l with
  | nil => rfl
  | cons x xs ih =>
    rcases hx : p x <;> simp [List.countP_cons, hx] <;> omega

/-- The per-release loop counts successes in `processed`, failures in
`errorTally`, and logs one message per failure. -/
theorem syncLoop_counts (b : Backend) (now : Int) (releases : List OCDSRelease) :
    ∀ st : LoopState,
      (releases.foldl (syncStep b now) st).processed
          = st.processed + releases.countP (releaseOk b now)
      ∧ (releases.foldl (syncStep b now) st).errorTally
          = st.errorTally + releases.countP (fun r => !(releaseOk b now r))
      ∧ (releases.foldl (syncStep b now) st).errorLog.length
          = st.errorLog.length + releases.countP (fun r => !(releaseOk b now r)) := by
  induction releases with
  | nil => intro st; simp
  | cons r rs ih =>
    intro st
    have hstep := processRelease_isOk b now st.db r
    rcases hp : processRelease b now st.db r with e | db2
    · rw [hp] at hstep
      have hfalse : releaseOk b now r = false := hstep.symm
      have hs : syncStep b now st r
          = { st with
                errorTally := st.errorTally + 1,
                errorLog := st.errorLog ++
                  ["Failed to process tender " ++ jsShowOpt r.ocid ++ ": " ++ e] } := by
        unfold syncStep
        rw [hp]
      obtain ⟨ih1, ih2, ih3⟩ := ih ({ st with
        errorTally := st.errorTally + 1,
        errorLog := st.errorLog ++
          ["Failed to process tender " ++ jsShowOpt r.ocid ++ ": " ++ e] })
      refine ⟨?_, ?_, ?_⟩ <;>
        (simp only [List.foldl_cons, hs, ih1, ih2, ih3, List.countP_cons, hfalse];
         simp) <;> omega
    · rw [hp] at hstep
      have htrue : releaseOk b now r = true := hstep.symm
      have hs : syncStep b now st r
          = { st with db := db2, processed := st.processed + 1 } := by
        unfold syncStep
        rw [hp]
      obtain ⟨ih1, ih2, ih3⟩ := ih ({ st with db := db2, processed := st.processed + 1 })
      refine ⟨?_, ?_, ?_⟩ <;>
        (simp only [List.foldl_cons, hs, ih1, ih2, ih3, List.countP_cons, htrue];
         simp) <;> omega

/-- C9: when exactly one release of a fetched page fails its
normalize-then-upsert step, the run does not throw and reports
`processed_count = N-1`, `error_count = 1`, `total_fetched = N`; and every
successful run carries at most 10 sample error messages. -/
theorem runSync_batch_isolation (b : Backend) (db : DBState) (now : Int)
    (releases : List OCDSRelease)
    (hone : releases.countP (fun r => !(releaseOk b now r)) = 1) :
    (∃ data, (runSync b db now (Except.ok releases)).1 = SyncResponse.success data
      ∧ data.processed_count = releases.length - 1
      ∧ data.error_count = 1
      ∧ data.total_fetched = releases.length
      ∧ data.errors.length ≤ 10)
    ∧ (∀ fetched data,
        (runSync b db now fetched).1 = SyncResponse.success data →
        data.errors.length ≤ 10) := by
  constructor
  · obtain ⟨h1, h2, h3⟩ := syncLoop_counts b now releases ⟨db, 0, 0, []⟩
    have hsplit := countP_split (releaseOk b now) releases
    refine ⟨_, rfl, ?_, ?_, rfl, ?_⟩
    · show (releases.foldl (syncStep b now) ⟨db, 0, 0, []⟩).processed
          = releases.length - 1
      rw [h1]
      show 0 + releases.countP (releaseOk b now) = releases.length - 1
      omega
    · show (releases.foldl (syncStep b now) ⟨db, 0, 0, []⟩).errorTally = 1
      rw [h2]
      show 0 + releases.countP (fun r => !(releaseOk b now r)) = 1
      omega
    · show ((releases.foldl (syncStep b now) ⟨db, 0, 0, []⟩).errorLog.take 10).length ≤ 10
      rw [List.length_take]
      exact Nat.min_le_left _ _
  · intro fetched data h
    rcases fetched with e | rels
    · exact SyncResponse.noConfusion h
    · cases h
      show ((rels.foldl (syncStep b now) ⟨db, 0, 0, []⟩).errorLog.take 10).length ≤ 10
      rw [List.length_take]
      exact Nat.min_le_left _ _

/-- Projection of the success payload of a sync response. -/
def SyncResponse.dataOf : SyncResponse → Option SyncData
  | SyncResponse.success d => some d
  | SyncResponse.failure _ _ => none

/-- Witness for C9 at a concrete two-release page in which exactly the
second release fails. -/
theorem runSync_batch_isolation_witness :
    ((runSync okBackend emptyDB 0
        (Except.ok [sampleRelease, failingRelease])).1.dataOf.map
      (fun d => (d.processed_count, d.error_count, d.total_fetched)))
      = some (1, 1, 2) := by
  obtain ⟨⟨data, hd, hp, he, ht, _⟩, _⟩ :=
    runSync_batch_isolation okBackend emptyDB 0 [sampleRelease, failingRelease]
      (by decide)
  rw [hd]
  simp [SyncResponse.dataOf, hp, he, ht]

-- ---------------------------------------------------------------------------
-- C7: helper lemmas
-- ---------------------------------------------------------------------------

/-- Replacing every `p`-matching element by a fixed `p`-satisfying value
makes that value the first `p`-match whenever one existed. -/
theorem findUpd {α : Type} (p : α → Bool) (y : α) (hy : p y = true) :
    ∀ (l : List α) (row : α), l.find? p = some row →
      (l.map (fun u => if p u then y else u)).find? p = some y := by
  intro l
  induction l with
  | nil => intro row h; cases h
  | cons x xs ih =>
    intro row h
    by_cases hx : p x
    · simp only [List.map_cons, if_pos hx]
      rw [List.find?_cons_of_pos _ hy]
    · simp only [List.map_cons, if_neg hx]
      rw [List.find?_cons_of_neg _ hx]
      rw [List.find?_cons_of_neg _ hx] at h
      exact ih row h

/-- The replacement map is idempotent. -/
theorem mapUpdIdem {α : Type} (p : α → Bool) (y : α) (hy : p y = true) (l : List α) :
    (l.map (fun u => if p u then y else u)).map (fun u => if p u then y else u)
      = l.map (fun u => if p u then y else u) := by
  rw [List.map_map]
  refine List.map_congr_left ?_
  intro u _
  by_cases hu : p u
  · simp [Function.comp, hu, hy]
  · simp [Function.comp, hu]

/-- The replacement map is the identity when nothing matches. -/
theorem mapUpdId {α : Type} (p : α → Bool) (y : α) (l : List α)
    (h : ∀ u ∈ l, p u = false) :
    l.map (fun u => if p u then y else u) = l := by
  have hcg : ∀ u ∈ l, (if p u then y else u) = id u := by
    intro u hu
    rw [if_neg (by simp [h u hu])]
    rfl
  rw [List.map_congr_left hcg, List.map_id]

/-- Deleting the same tender's documents twice equals deleting them once. -/
theorem filterNeIdem (tid : Nat) (l : List DocRow) :
    (l.filter (fun d => d.tender_id ≠ tid)).filter (fun d => d.tender_id ≠ tid)
      = l.filter (fun d => d.tender_id ≠ tid) := by
  rw [List.filter_filter]
  simp

/-- Freshly inserted documents of tender `tid` are all removed by a delete
of tender `tid`. -/
theorem filterNewDocs (tid : Nat) (docs : List TenderDocumentRecord) :
    (docs.map (fun d => ({ tender_id := tid, doc := d } : DocRow))).filter
        (fun d => d.tender_id ≠ tid) = [] := by
  induction docs with
  | nil => rfl
  | cons d ds ih => simp_all [List.filter_cons]

/-- After an upsert, the first row matching the record's ocid is the row
just written, carrying the resolved id. -/
theorem upsertRow_target (db : DBState) (t : TenderFields) :
    (upsertRow db t).1.tenders.find? (fun row => row.fields.ocid == t.ocid)
      = some ⟨(upsertRow db t).2, t⟩ := by
  unfold upsertRow
  rcases h : db.tenders.find? (fun row => row.fields.ocid == t.ocid) with _ | row <;> rw [h]
  · show (db.tenders ++ [(⟨db.nextId, t⟩ : TenderRow)]).find? (fun row => row.fields.ocid == t.ocid)
        = some (⟨db.nextId, t⟩ : TenderRow)
    rw [List.find?_append, h]
    simp [List.find?]
  · show (db.tenders.map (fun u => if u.fields.ocid == t.ocid then ({ id := row.id, fields := t } : TenderRow) else u)).find? (fun row => row.fields.ocid == t.ocid) = some (⟨row.id, t⟩ : TenderRow)
    exact findUpd _ _ (by simp) db.tenders row h

/-- The upsert never touches the documents table. -/
theorem upsertRow_documents (db : DBState) (t : TenderFields) :
    (upsertRow db t).1.documents = db.documents := by
  unfold upsertRow
  rcases h : db.tenders.find? (fun row => row.fields.ocid == t.ocid) with _ | row <;>
    rw [h]

/-- Re-applying the row update to an already-updated tender list is the
identity. -/
theorem tenders_upd_fixed (db : DBState) (t : TenderFields) :
    (upsertRow db t).1.tenders.map
        (fun u => if u.fields.ocid == t.ocid then ⟨(upsertRow db t).2, t⟩ else u)
      = (upsertRow db t).1.tenders := by
  unfold upsertRow
  rcases h : db.tenders.find? (fun row => row.fields.ocid == t.ocid) with _ | row <;> rw [h]
  · show (db.tenders ++ [(⟨db.nextId, t⟩ : TenderRow)]).map (fun u => if u.fields.ocid == t.ocid then (⟨db.nextId, t⟩ : TenderRow) else u) = db.tenders ++ [(⟨db.nextId, t⟩ : TenderRow)]
    rw [List.map_append]
    have h1 : db.tenders.map
        (fun u => if u.fields.ocid == t.ocid then (⟨db.nextId, t⟩ : TenderRow) else u)
        = db.tenders := by
      refine mapUpdId _ _ _ ?_
      intro u hu
      have := List.find?_eq_none.mp h u hu
      simpa using this
    rw [h1]
    simp
  · show (db.tenders.map (fun u => if u.fields.ocid == t.ocid then ({ id := row.id, fields := t } : TenderRow) else u)).map (fun u => if u.fields.ocid == t.ocid then (⟨row.id, t⟩ : TenderRow) else u) = db.tenders.map (fun u => if u.fields.ocid == t.ocid then ({ id := row.id, fields := t } : TenderRow) else u)
    exact mapUpdIdem _ _ (by simp) db.tenders

/-- Upserting into any state whose tender list is already the updated one is
a no-op resolving the same id. -/
theorem upsertRow_fixed (db : DBState) (t : TenderFields) (X : DBState)
    (hX : X.tenders = (upsertRow db t).1.tenders) :
    upsertRow X t = (X, (upsertRow db t).2) := by
  have hfind : X.tenders.find? (fun row => row.fields.ocid == t.ocid)
      = some ⟨(upsertRow db t).2, t⟩ := by
    rw [hX]
    exact upsertRow_target db t
  have hmap : X.tenders.map
      (fun u => if u.fields.ocid == t.ocid then ⟨(upsertRow db t).2, t⟩ else u)
      = X.tenders := by
    rw [hX]
    exact tenders_upd_fixed db t
  conv_lhs => rw [upsertRow.eq_def]
  rw [hfind]
  show ({ X with tenders := (X.tenders.map (fun u => if u.fields.ocid == t.ocid then (⟨(upsertRow db t).2, t⟩ : TenderRow) else u)) }, (upsertRow db t).2) = (X, (upsertRow db t).2)
  rw [hmap]

/-- `applyUpsert` only changes the documents table beyond the row upsert. -/
theorem applyUpsert_tenders (db : DBState) (rec : TenderRecord) :
    (applyUpsert db rec).tenders = (upsertRow db rec.toTenderFields).1.tenders := by
  simp only [applyUpsert, deleteDocs, insertDocs]
  split <;> rfl

/-- `applyUpsert` leaves the id allocator as the row upsert left it. -/
theorem applyUpsert_nextId (db : DBState) (rec : TenderRecord) :
    (applyUpsert db rec).nextId = (upsertRow db rec.toTenderFields).1.nextId := by
  simp only [applyUpsert, deleteDocs, insertDocs]
  split <;> rfl

/-- After `applyUpsert`, the documents table is the old table purged of the
resolved tender's documents plus the record's documents under that id. -/
theorem applyUpsert_documents (db : DBState) (rec : TenderRecord) :
    (applyUpsert db rec).documents
      = db.documents.filter (fun d => d.tender_id ≠ (upsertRow db rec.toTenderFields).2)
        ++ rec.documents.map
            (fun d => ({ tender_id := (upsertRow db rec.toTenderFields).2, doc := d } : DocRow)) := by
  simp only [applyUpsert, deleteDocs, insertDocs]
  split
  · next hemp =>
      have hnil : rec.documents = [] := by simpa using hemp
      simp [hnil, upsertRow_documents]
  · next hemp =>
      simp [upsertRow_documents]

/-- The success path of the upsert is idempotent: re-upserting the identical
record is a no-op on the whole database state. -/
theorem applyUpsert_idem (db : DBState) (rec : TenderRecord) :
    applyUpsert (applyUpsert db rec) rec = applyUpsert db rec := by
  have hT := applyUpsert_tenders db rec
  have hrow := upsertRow_fixed db rec.toTenderFields (applyUpsert db rec) hT
  have hq : (applyUpsert db rec).documents.filter
      (fun d => d.tender_id ≠ (upsertRow db rec.toTenderFields).2)
      = db.documents.filter (fun d => d.tender_id ≠ (upsertRow db rec.toTenderFields).2) := by
    rw [applyUpsert_documents db rec, List.filter_append, filterNeIdem, filterNewDocs,
      List.append_nil]
  conv_lhs => rw [applyUpsert.eq_def]
  rw [hrow]
  by_cases hemp : rec.documents.isEmpty = true
  · rw [if_pos hemp]
    have hnil : rec.documents = [] := by simpa using hemp
    show { applyUpsert db rec with documents := ((applyUpsert db rec).documents.filter (fun d => d.tender_id ≠ (upsertRow db rec.toTenderFields).2)) } = applyUpsert db rec
    rw [hq]
    rw [show db.documents.filter (fun d => d.tender_id ≠ (upsertRow db rec.toTenderFields).2) = (applyUpsert db rec).documents from by rw [applyUpsert_documents db rec, hnil]; simp]
  · rw [if_neg hemp]
    show { applyUpsert db rec with documents := ((applyUpsert db rec).documents.filter (fun d => d.tender_id ≠ (upsertRow db rec.toTenderFields).2)) ++ rec.documents.map (fun d => ({ tender_id := (upsertRow db rec.toTenderFields).2, doc := d } : DocRow)) } = applyUpsert db rec
    rw [hq, ← applyUpsert_documents db rec]

/-- A tender list with pairwise-distinct ocids has at most one row per key. -/
theorem countLeOne (key : Option String) (l : List TenderRow)
    (h : (l.map (fun r => r.fields.ocid)).Nodup) :
    l.countP (fun r => r.fields.ocid == key) ≤ 1 := by
  induction l with
  | nil => simp
  | cons x xs ih =>
    simp only [List.map_cons, List.nodup_cons] at h
    obtain ⟨hx, hxs⟩ := h
    rcases hk : x.fields.ocid == key
    · rw [List.countP_cons_of_neg _ _ (by simp [hk])]
      exact ih hxs
    · rw [List.countP_cons_of_pos _ _ (by simp [hk])]
      have hzero : xs.countP (fun r => r.fields.ocid == key) = 0 := by
        rw [List.countP_eq_zero]
        intro r hr hbeq
        refine hx ?_
        have h1 : r.fields.ocid = key := eq_of_beq hbeq
        have h2 : x.fields.ocid = key := eq_of_beq hk
        rw [h2, ← h1]
        exact List.mem_map_of_mem _ hr
      omega

/-- The upsert preserves distinctness of the stored ocids. -/
theorem applyUpsert_nodup (db : DBState) (rec : TenderRecord)
    (h : (db.tenders.map (fun r => r.fields.ocid)).Nodup) :
    ((applyUpsert db rec).tenders.map (fun r => r.fields.ocid)).Nodup := by
  rw [applyUpsert_tenders]
  unfold upsertRow
  rcases hf : db.tenders.find?
      (fun row => row.fields.ocid == rec.toTenderFields.ocid) with _ | row <;> rw [hf]
  · show ((db.tenders ++ [(⟨db.nextId, rec.toTenderFields⟩ : TenderRow)]).map (fun r => r.fields.ocid)).Nodup
    rw [List.map_append, List.nodup_append]
    refine ⟨h, by simp, ?_⟩
    intro a ha hb
    simp only [List.map_cons, List.map_nil, List.mem_singleton] at hb
    subst hb
    obtain ⟨r, hr, hro⟩ := List.mem_map.mp ha
    have hne := List.find?_eq_none.mp hf r hr
    exact hne (by rw [hro]; simp)
  · show ((db.tenders.map (fun u => if u.fields.ocid == rec.toTenderFields.ocid then ({ id := row.id, fields := rec.toTenderFields } : TenderRow) else u)).map (fun r => r.fields.ocid)).Nodup
    rw [List.map_map]
    have hcg : ∀ u ∈ db.tenders,
        ((fun r => r.fields.ocid) ∘ (fun u =>
          if u.fields.ocid == rec.toTenderFields.ocid
          then ({ id := row.id, fields := rec.toTenderFields } : TenderRow) else u)) u
          = u.fields.ocid := by
      intro u _
      by_cases hu : u.fields.ocid == rec.toTenderFields.ocid
      · simp only [Function.comp, hu, if_true]
        exact (eq_of_beq hu).symm
      · simp [Function.comp, hu]
    rw [List.map_congr_left hcg]
    exact h

/-- After an upsert, exactly one stored row carries the record's ocid. -/
theorem applyUpsert_count_self (db : DBState) (rec : TenderRecord)
    (h : (db.tenders.map (fun r => r.fields.ocid)).Nodup) :
    (applyUpsert db rec).tenders.countP
        (fun r => r.fields.ocid == rec.toTenderFields.ocid) = 1 := by
  have hle := countLeOne rec.toTenderFields.ocid _ (applyUpsert_nodup db rec h)
  have hfind : (applyUpsert db rec).tenders.find?
      (fun r => r.fields.ocid == rec.toTenderFields.ocid)
      = some ⟨(upsertRow db rec.toTenderFields).2, rec.toTenderFields⟩ := by
    rw [applyUpsert_tenders]
    exact upsertRow_target db rec.toTenderFields
  have hmem := List.mem_of_find?_eq_some hfind
  have hpos : 0 < (applyUpsert db rec).tenders.countP
      (fun r => r.fields.ocid == rec.toTenderFields.ocid) :=
    List.countP_pos_iff.mpr ⟨_, hmem, by simp⟩
  omega

/-- Distinctness of stored ocids is preserved along any upsert sequence. -/
theorem foldl_nodup (db : DBState)
    (h : (db.tenders.map (fun r => r.fields.ocid)).Nodup)
    (recs : List TenderRecord) :
    (((recs.foldl applyUpsert db).tenders.map (fun r => r.fields.ocid))).Nodup := by
  induction recs generalizing db with
  | nil => exact h
  | cons r rs ih => exact ih _ (applyUpsert_nodup db r h)

-- ---------------------------------------------------------------------------
-- C7
-- ---------------------------------------------------------------------------

/-- C7: against a store with pairwise-distinct external identifiers, the
upsert is idempotent — a second upsert of the identical record returns the
very same state (one canonical row for the identifier, unchanged document
set, no duplicate documents) — and after any sequence of upserts at most one
canonical row exists per external identifier. -/
theorem upsert_idempotent_and_unique (db : DBState) (rec : TenderRecord)
    (hdb : (db.tenders.map (fun r => r.fields.ocid)).Nodup) :
    (∃ db1, upsertTender okBackend db rec = Except.ok db1
        ∧ upsertTender okBackend db1 rec = Except.ok db1
        ∧ db1.tenders.countP (fun r => r.fields.ocid == rec.toTenderFields.ocid) = 1
        ∧ (db1.tenders.map (fun r => r.fields.ocid)).Nodup)
    ∧ (∀ recs : List TenderRecord, ∀ key,
        (recs.foldl applyUpsert db).tenders.countP
          (fun r => r.fields.ocid == key) ≤ 1) := by
  have hok : ∀ (X : DBState) (r2 : TenderRecord),
      upsertTender okBackend X r2 = Except.ok (applyUpsert X r2) := fun X r2 => rfl
  constructor
  · refine ⟨applyUpsert db rec, hok db rec, ?_, ?_, ?_⟩
    · rw [hok, applyUpsert_idem]
    · exact applyUpsert_count_self db rec hdb
    · exact applyUpsert_nodup db rec hdb
  · intro recs key
    exact countLeOne key _ (foldl_nodup db hdb recs)

/-- Witness for C7 at a concrete record and the empty store. -/
theorem upsert_idempotent_and_unique_witness :
    upsertTender okBackend (applyUpsert emptyDB plainRecord) plainRecord
        = Except.ok (applyUpsert emptyDB plainRecord)
    ∧ (applyUpsert emptyDB plainRecord).tenders.countP
        (fun r => r.fields.ocid == plainRecord.toTenderFields.ocid) = 1 := by
  obtain ⟨⟨db1, h1, h2, h3, _⟩, _⟩ :=
    upsert_idempotent_and_unique emptyDB plainRecord (by simp [emptyDB])
  have hrfl : upsertTender okBackend emptyDB plainRecord
      = Except.ok (applyUpsert emptyDB plainRecord) := rfl
  rw [hrfl] at h1
  have hdb1 : applyUpsert emptyDB plainRecord = db1 := Except.ok.inj h1
  rw [hdb1]
  exact ⟨h2, h3⟩
